import Mathlib

/-!
Verification of the data-shaping core of the Mrbeast-Dashboard repository.

The Python sources embedded here:
  - src/utils/data_processing.py  (process_channel_statistics,
    process_video_statistics, format_duration)
  - src/utils/youtube_api.py      (cached_videos_statistics chunking,
    get_video_comments error handling, st.cache_data TTL caching)
  - src/components/video_metrics.py and channel_metrics.py
    (derived pandas columns likes_per_view, comments_per_view,
    engagement ratio)

Conventions of the embedding:
  - JSON dictionaries become structures whose optional keys are Option
    fields; a missing "items" key and an empty item list behave the same
    in the source (both are falsy), so result envelopes carry a plain
    list.
  - Python numbers are Nat / Int / Rat; floats carry exact rationals,
    and the pandas float special values NaN / +inf are an explicit
    inductive.
  - A Python function that can raise is embedded as an Option-valued
    function; none is an uncaught exception.
-/

namespace Dashboard

/-- Digits of a numeral, most significant first, to a natural number. -/
def digitsToNat (ds : List Char) : Nat :=
  ds.foldl (fun acc c => acc * 10 + (c.toNat - Char.toNat '0')) 0

/-! ## Provider response shapes -/

/-- The fields of an item's "snippet" dictionary that the sources read.
The nested thumbnail access snippet.thumbnails.medium.url is flattened
into one optional field: it is absent whenever any level is missing. -/
structure Snippet where
  title : Option String
  description : Option String
  publishedAt : Option String
  thumbnailMediumUrl : Option String
deriving DecidableEq

/-- The "statistics" dictionary of a video item. -/
structure Statistics where
  viewCount : Option Nat
  likeCount : Option Nat
  commentCount : Option Nat
deriving DecidableEq

/-- The "contentDetails" dictionary of a video item. -/
structure ContentDetails where
  duration : Option String
deriving DecidableEq

/-- One item of the videos().list statistics response. -/
structure StatItem where
  id : Option String
  snippet : Option Snippet
  statistics : Option Statistics
  contentDetails : Option ContentDetails
deriving DecidableEq

/-- One item of the search().list response; the sources only read
item.id.videoId, flattened here into one optional field. -/
structure SearchItem where
  videoId : Option String
deriving DecidableEq

/-- The search().list response envelope: videos.get("items", []). -/
structure SearchResults where
  items : List SearchItem
deriving DecidableEq

/-- The videos().list response envelope. -/
structure StatResults where
  items : List StatItem
deriving DecidableEq

/-! ## isodate.parse_duration

Model of isodate's ISO-8601 duration parser, per its period regex
sign? P years? months? weeks? days? (T hours? minutes? seconds?)? with
each component written digits+([.,]digits+)? followed by its designator
letter, anchored at both ends, and with a lookahead rejecting a bare
"P".  isodate returns a timedelta when years and months are absent and
an isodate Duration otherwise; Duration delegates unknown attributes
(total_seconds among them) to its internal timedelta, so the
years/months components never contribute to total_seconds. -/

/-- Result of isodate.parse_duration: the years/months components and
the seconds of the embedded timedelta. -/
structure Duration where
  years : ℚ
  months : ℚ
  tdeltaSeconds : ℚ
deriving DecidableEq

/-- Duration.total_seconds: isodate's Duration delegates the attribute
to its timedelta component, which ignores years and months. -/
def Duration.total_seconds (d : Duration) : ℚ :=
  d.tdeltaSeconds

/-- Read digits+([.,]digits+)? as an exact rational; none when there is
no leading digit or a separator is not followed by a digit. -/
def readNumber (cs : List Char) : Option (ℚ × List Char) :=
  let ds := cs.takeWhile Char.isDigit
  let rest := cs.dropWhile Char.isDigit
  if ds = [] then none
  else
    match rest with
    | sep :: rest2 =>
      if sep = '.' ∨ sep = ',' then
        let fs := rest2.takeWhile Char.isDigit
        let rest3 := rest2.dropWhile Char.isDigit
        if fs = [] then none
        else some ((digitsToNat ds : ℚ) + (digitsToNat fs : ℚ) / ((10 : ℚ) ^ fs.length), rest3)
      else some ((digitsToNat ds : ℚ), rest)
    | [] => some ((digitsToNat ds : ℚ), [])

/-- Try one optional component number-followed-by-designator; on any
mismatch the input is left untouched and the component contributes 0,
exactly as the regex's optional group does (every continuation after a
skipped group starts with a non-matching character, so no backtracking
is lost). -/
def tryComp (cs : List Char) (desig : Char) : ℚ × List Char :=
  match readNumber cs with
  | some (n, d :: rest) => if d = desig then (n, rest) else (0, cs)
  | _ => (0, cs)

/-- isodate.parse_duration; none models the raised ISO8601Error. -/
def parse_duration (s : String) : Option Duration :=
  let cs0 := s.toList
  let sgn : ℚ :=
    match cs0 with
    | '-' :: _ => -1
    | _ => 1
  let cs1 :=
    match cs0 with
    | '+' :: rest => rest
    | '-' :: rest => rest
    | _ => cs0
  match cs1 with
  | 'P' :: rest =>
    if rest = [] then none
    else
      let (y, r1) := tryComp rest 'Y'
      let (mo, r2) := tryComp r1 'M'
      let (w, r3) := tryComp r2 'W'
      let (d, r4) := tryComp r3 'D'
      let (hh, mm, ss, r5) :=
        match r4 with
        | 'T' :: rt =>
          let (hh, t1) := tryComp rt 'H'
          let (mm, t2) := tryComp t1 'M'
          let (ss, t3) := tryComp t2 'S'
          (hh, mm, ss, t3)
        | _ => ((0 : ℚ), (0 : ℚ), (0 : ℚ), r4)
      if r5 = [] then
        some { years := sgn * y, months := sgn * mo,
               tdeltaSeconds := sgn * (w * 604800 + d * 86400 + hh * 3600 + mm * 60 + ss) }
      else none
  | _ => none

/-! ## datetime.strptime with format "%Y-%m-%dT%H:%M:%SZ"

CPython's _strptime compiles the directives to regex alternations:
%Y is exactly four digits; %m is 1[0-2]|0[1-9]|[1-9]; %d is
3[01]|[12]d|0[1-9]|[1-9]; %H is 2[0-3]|[0-1]d|d; %M is [0-5]d|d;
%S is 6[0-1]|[0-5]d|d.  In this format every numeric field is followed
by a non-digit literal, so the alternation is equivalent to: take two
digits when available and in the two-digit set, else one digit in the
one-digit set (a one-digit match followed by another digit always fails
at the literal).  The datetime constructor then validates the calendar
date, year at least 1 and second at most 59. -/

structure DateTime where
  year : Nat
  month : Nat
  day : Nat
  hour : Nat
  minute : Nat
  second : Nat
deriving DecidableEq

/-- Read a strptime numeric field of one or two digits. -/
def readVarField (valid2 valid1 : Nat → Bool) : List Char → Option (Nat × List Char)
  | a :: b :: rest =>
    if a.isDigit then
      if b.isDigit then
        if valid2 (digitsToNat [a, b]) then some (digitsToNat [a, b], rest)
        else if valid1 (digitsToNat [a]) then some (digitsToNat [a], b :: rest) else none
      else if valid1 (digitsToNat [a]) then some (digitsToNat [a], b :: rest) else none
    else none
  | [a] => if a.isDigit && valid1 (digitsToNat [a]) then some (digitsToNat [a], []) else none
  | [] => none

/-- Read exactly four digits (the %Y directive). -/
def readFixed4 : List Char → Option (Nat × List Char)
  | a :: b :: c :: d :: rest =>
    if a.isDigit && b.isDigit && c.isDigit && d.isDigit then
      some (digitsToNat [a, b, c, d], rest)
    else none
  | _ => none

/-- Consume one expected literal character. -/
def expectChar (c : Char) : List Char → Option (List Char)
  | x :: rest => if x = c then some rest else none
  | [] => none

def isLeapYear (y : Nat) : Bool :=
  (y % 4 = 0 && y % 100 ≠ 0) || y % 400 = 0

def daysInMonth (y mo : Nat) : Nat :=
  if mo = 2 then (if isLeapYear y then 29 else 28)
  else if mo = 4 ∨ mo = 6 ∨ mo = 9 ∨ mo = 11 then 30
  else 31

/-- datetime.strptime(s, "%Y-%m-%dT%H:%M:%SZ"); none models the raised
ValueError (regex mismatch, unconverted trailing data, or a value the
datetime constructor rejects). -/
def parseTimestamp (s : String) : Option DateTime := do
  let cs := s.toList
  let (y, cs) ← readFixed4 cs
  let cs ← expectChar '-' cs
  let (mo, cs) ← readVarField (fun n => 1 ≤ n && n ≤ 12) (fun n => 1 ≤ n && n ≤ 9) cs
  let cs ← expectChar '-' cs
  let (d, cs) ← readVarField (fun n => 1 ≤ n && n ≤ 31) (fun n => 1 ≤ n && n ≤ 9) cs
  let cs ← expectChar 'T' cs
  let (hh, cs) ← readVarField (fun n => n ≤ 23) (fun n => n ≤ 9) cs
  let cs ← expectChar ':' cs
  let (mi, cs) ← readVarField (fun n => n ≤ 59) (fun n => n ≤ 9) cs
  let cs ← expectChar ':' cs
  let (ss, cs) ← readVarField (fun n => n ≤ 61) (fun n => n ≤ 9) cs
  let cs ← expectChar 'Z' cs
  if cs = [] && 1 ≤ y && d ≤ daysInMonth y mo && ss ≤ 59 then
    some ⟨y, mo, d, hh, mi, ss⟩
  else none

def monthAbbrev : Nat → String
  | 1 => "Jan"
  | 2 => "Feb"
  | 3 => "Mar"
  | 4 => "Apr"
  | 5 => "May"
  | 6 => "Jun"
  | 7 => "Jul"
  | 8 => "Aug"
  | 9 => "Sep"
  | 10 => "Oct"
  | 11 => "Nov"
  | 12 => "Dec"
  | _ => ""

def pad2 (n : Nat) : String :=
  if n < 10 then "0" ++ toString n else toString n

/-- strftime("%b %d, %Y") on a parsed timestamp. -/
def formatDateDisplay (dt : DateTime) : String :=
  monthAbbrev dt.month ++ " " ++ pad2 dt.day ++ ", " ++ toString dt.year

/-- A sort key that orders DateTimes chronologically. -/
def DateTime.key (dt : DateTime) : Nat :=
  ((((dt.year * 13 + dt.month) * 32 + dt.day) * 24 + dt.hour) * 60 + dt.minute) * 60 + dt.second

/-! ## Shared numeric helpers for the float divmod idiom -/

/-- Python's int() on a float: truncation toward zero. -/
def intPy (q : ℚ) : ℤ :=
  if 0 ≤ q then ⌊q⌋ else -⌊-q⌋

/-- Python's divmod on floats with a positive divisor: floored quotient
and the matching remainder. -/
def divmodQ (a b : ℚ) : ℚ × ℚ :=
  ((⌊a / b⌋ : ℚ), a - b * (⌊a / b⌋ : ℚ))

/-- Map a failing elementwise computation over a list; none as soon as
one element fails, modelling a Python loop aborted by an exception. -/
def mapOption (f : α → Option β) : List α → Option (List β)
  | [] => some []
  | a :: rest => do
    let b ← f a
    let bs ← mapOption f rest
    some (b :: bs)

/-! ## data_processing.process_channel_statistics -/

/-- The dictionary process_channel_statistics returns. -/
structure ChannelStats where
  video_count : Nat
  avg_views : ℚ
  avg_likes : ℚ
  avg_comments : ℚ
  avg_duration_seconds : ℚ
  total_views : Nat
  total_likes : Nat
  total_comments : Nat
deriving DecidableEq

def zeroChannelStats : ChannelStats :=
  { video_count := 0, avg_views := 0, avg_likes := 0, avg_comments := 0,
    avg_duration_seconds := 0, total_views := 0, total_likes := 0, total_comments := 0 }

/-- int(video.get("statistics", \x7b\x7d).get("viewCount", 0)). -/
def viewsOf (v : StatItem) : Nat :=
  (v.statistics.bind Statistics.viewCount).getD 0

def likesOf (v : StatItem) : Nat :=
  (v.statistics.bind Statistics.likeCount).getD 0

def commentsOf (v : StatItem) : Nat :=
  (v.statistics.bind Statistics.commentCount).getD 0

/-- video.get("contentDetails", \x7b\x7d).get("duration", "PT0S"). -/
def durationIsoOf (v : StatItem) : String :=
  (v.contentDetails.bind ContentDetails.duration).getD "PT0S"

/-- isodate.parse_duration(duration_iso).total_seconds(); none models
the exception raised on an invalid duration string. -/
def durSecondsOf (v : StatItem) : Option ℚ :=
  (parse_duration (durationIsoOf v)).map Duration.total_seconds

/-- The accumulation loop of process_channel_statistics, lines 36-44:
running totals of views, likes, comments and duration seconds; none if
any item's duration string fails to parse. -/
def accumChannel : List StatItem → Option (Nat × Nat × Nat × ℚ)
  | [] => some (0, 0, 0, 0)
  | v :: rest => do
    let d ← durSecondsOf v
    let (tv, tl, tc, td) ← accumChannel rest
    some (viewsOf v + tv, likesOf v + tl, commentsOf v + tc, d + td)

/-- data_processing.process_channel_statistics; none models an uncaught
exception from isodate duration parsing. -/
def process_channel_statistics (videos : SearchResults) (video_statistics : StatResults) :
    Option ChannelStats :=
  let video_count := videos.items.length
  if video_count == 0 || video_statistics.items.isEmpty then
    some zeroChannelStats
  else do
    let (tv, tl, tc, td) ← accumChannel video_statistics.items
    some {
      video_count := video_count
      avg_views := if video_count > 0 then (tv : ℚ) / (video_count : ℚ) else 0
      avg_likes := if video_count > 0 then (tl : ℚ) / (video_count : ℚ) else 0
      avg_comments := if video_count > 0 then (tc : ℚ) / (video_count : ℚ) else 0
      avg_duration_seconds := if video_count > 0 then td / (video_count : ℚ) else 0
      total_views := tv
      total_likes := tl
      total_comments := tc }

/-! ## data_processing.process_video_statistics -/

/-- One row of the video DataFrame. -/
structure VideoRecord where
  id : Option String
  title : String
  description : String
  published_at : Option String
  published_date : String
  views : Nat
  likes : Nat
  comments : Nat
  duration_seconds : ℚ
  duration : String
  thumbnail : String
deriving DecidableEq

/-- Zero-padded 2-digit rendering of an integer (the :02d format). -/
def padInt2 (z : ℤ) : String :=
  if 0 ≤ z ∧ z < 10 then "0" ++ toString z else toString z

/-- Lines 98-104: the compact colon display of a duration, built from
two float divmods by 60. -/
def formatColonDuration (ds : ℚ) : String :=
  let (m1, s1) := divmodQ ds 60
  let (h1, m2) := divmodQ m1 60
  if h1 > 0 then
    toString (intPy h1) ++ ":" ++ padInt2 (intPy m2) ++ ":" ++ padInt2 (intPy s1)
  else
    toString (intPy m2) ++ ":" ++ padInt2 (intPy s1)

/-- Lines 72-76: the dict from videoId to search item, keyed only by
items that carry a videoId.  The per-item lookup result on line 84 is
never used afterwards, so the table content does not depend on it. -/
def videoSearchLookup (videos : SearchResults) : List (String × SearchItem) :=
  videos.items.foldl
    (fun acc item =>
      match item.videoId with
      | some vid => (vid, item) :: acc
      | none => acc)
    []

/-- Lines 81-126: build one row from one statistics item; none models
an exception from duration parsing or from strptime on a present but
unparsable publishedAt (Python's truthiness sends None and "" to the
"Unknown" branch instead). -/
def mkRecord (v : StatItem) : Option VideoRecord := do
  let dur ← parse_duration (durationIsoOf v)
  let ds := dur.total_seconds
  let pa := v.snippet.bind Snippet.publishedAt
  let pdisp ←
    match pa with
    | some s =>
      if s = "" then some "Unknown"
      else (parseTimestamp s).map formatDateDisplay
    | none => some "Unknown"
  some {
    id := v.id
    title := (v.snippet.bind Snippet.title).getD "Unknown"
    description := (v.snippet.bind Snippet.description).getD ""
    published_at := pa
    published_date := pdisp
    views := viewsOf v
    likes := likesOf v
    comments := commentsOf v
    duration_seconds := ds
    duration := formatColonDuration ds
    thumbnail := (v.snippet.bind Snippet.thumbnailMediumUrl).getD "" }

/-- pd.to_datetime applied to the published_at column before sorting.
None and the empty string become NaT (pandas maps empty strings to NaT);
every other string in the column already matched strptime's format, on
which pandas agrees, so the parse is reused for the sort key. -/
def toDatetime : Option String → Option (Option Nat)
  | none => some none
  | some s => if s = "" then some none else (parseTimestamp s).map (fun dt => some dt.key)

/-- Descending order on sort keys with NaT placed last, as
sort_values(ascending=False) does. -/
def keyGE : Option Nat → Option Nat → Bool
  | some a, some b => decide (b ≤ a)
  | some _, none => true
  | none, some _ => false
  | none, none => true

def insertByKey (p : Option Nat × VideoRecord) :
    List (Option Nat × VideoRecord) → List (Option Nat × VideoRecord)
  | [] => [p]
  | q :: rest => if keyGE p.1 q.1 then p :: q :: rest else q :: insertByKey p rest

/-- df.sort_values(by="published_at", ascending=False); the source's
quicksort is unstable, so any reordering agreeing with the key order is
a faithful model. -/
def sortRecsDesc : List (Option Nat × VideoRecord) → List (Option Nat × VideoRecord)
  | [] => []
  | p :: rest => insertByKey p (sortRecsDesc rest)

/-- data_processing.process_video_statistics; none models an uncaught
exception, some rows the resulting DataFrame. -/
def process_video_statistics (videos : SearchResults) (video_statistics : StatResults) :
    Option (List VideoRecord) :=
  if videos.items.isEmpty || video_statistics.items.isEmpty then
    some []
  else do
    let _lookup := videoSearchLookup videos
    let recs ← mapOption mkRecord video_statistics.items
    let keyed ← mapOption (fun r => (toDatetime r.published_at).map (fun k => (k, r))) recs
    some ((sortRecsDesc keyed).map Prod.snd)

/-! ## data_processing.format_duration -/

/-- data_processing.format_duration, lines 147-155. -/
def format_duration (seconds : ℚ) : String :=
  let (m1, s1) := divmodQ seconds 60
  let (h1, m2) := divmodQ m1 60
  if h1 > 0 then
    toString (intPy h1) ++ "h " ++ toString (intPy m2) ++ "m " ++ toString (intPy s1) ++ "s"
  else if m2 > 0 then
    toString (intPy m2) ++ "m " ++ toString (intPy s1) ++ "s"
  else
    toString (intPy s1) ++ "s"

/-- The spec's description of format_duration: hours, minutes and
seconds obtained directly as floor decompositions of the input. -/
def formatDurationSpec (seconds : ℚ) : String :=
  let hh : ℤ := ⌊seconds / 3600⌋
  let mm : ℤ := ⌊seconds / 60⌋ % 60
  let ss : ℤ := ⌊seconds⌋ % 60
  if hh > 0 then
    toString hh ++ "h " ++ toString mm ++ "m " ++ toString ss ++ "s"
  else if mm > 0 then
    toString mm ++ "m " ++ toString ss ++ "s"
  else
    toString ss ++ "s"

/-! ## youtube_api.cached_videos_statistics: chunking

The list comprehension video_ids[i:i+50] for i in range(0, len, 50) is
the take-50/drop-50 recursion; a fuel argument bounded by the list
length makes it structural (the recursion always stops within length
steps because every step consumes at least one element). -/

def chunksFuel : Nat → List String → List (List String)
  | 0, _ => []
  | _, [] => []
  | fuel + 1, l => l.take 50 :: chunksFuel fuel (l.drop 50)

/-- The batches [video_ids[i:i+50] for i in range(0, len(video_ids), 50)]. -/
def chunk50 (l : List String) : List (List String) :=
  chunksFuel l.length l

/-- The provider's videos().list call for one chunk of ids: it returns
at most one item per requested id (fetch), and response.get("items", [])
is their list.  cached_videos_statistics returns the merged envelope
together with the number of outbound execute() calls made. -/
def cached_videos_statistics (fetch : String → Option StatItem) (video_ids : List String) :
    StatResults × Nat :=
  if video_ids = [] then (⟨[]⟩, 0)
  else
    let chunks := chunk50 video_ids
    (⟨(chunks.map (fun c => c.filterMap fetch)).flatten⟩, chunks.length)

/-! ## st.cache_data(ttl=3600)

Modelled from the spec: the caching layer wrapping the three bulk-read
operations lives in streamlit's st.cache_data decorator, not in this
repository's sources; the spec describes it as a map keyed by the full
argument tuple (API key included) whose entries are served without a
network round-trip while younger than the one-hour window and refetched
after it. -/

structure Cache (κ ρ : Type) where
  entries : List (κ × Nat × ρ)

/-- A cached entry for the key, provided it is still inside its
validity window at the current time. -/
def lookupFresh [DecidableEq κ] (c : Cache κ ρ) (k : κ) (now ttl : Nat) : Option ρ :=
  match c.entries.find? (fun e => e.1 == k) with
  | some (_, t, r) => if now < t + ttl then some r else none
  | none => none

/-- One call through the cache: the returned Bool records whether an
outbound network fetch happened. -/
def cachedCall [DecidableEq κ] (fetch : κ → Nat → ρ) (ttl : Nat) (k : κ) (now : Nat)
    (c : Cache κ ρ) : ρ × Cache κ ρ × Bool :=
  match lookupFresh c k now ttl with
  | some r => (r, c, false)
  | none => (fetch k now, ⟨(k, now, fetch k now) :: c.entries⟩, true)

/-! ## youtube_api.YouTubeAPI.get_video_comments -/

/-- The commentThreads().list response envelope. -/
structure CommentsResponse where
  items : List String
deriving DecidableEq

/-- What the provider call does: either a response or a raised
HttpError carrying an HTTP status and an underlying reason. -/
inductive CommentsFetchResult where
  | ok (resp : CommentsResponse)
  | httpErr (status : Nat) (reason : String)
deriving DecidableEq

/-- youtube_api.py lines 133-146: the 403 status alone selects the
silent empty-success branch; any other HttpError is displayed via
st.error and the call returns None.  First component: the displayed
error text, if any; second: the returned value. -/
def get_video_comments (r : CommentsFetchResult) :
    Option String × Option CommentsResponse :=
  match r with
  | .ok resp => (none, some resp)
  | .httpErr status reason =>
    if status = 403 then (none, some ⟨[]⟩)
    else (some ("Error fetching video comments: " ++ reason), none)

/-! ## Derived pandas columns (video_metrics.py, channel_metrics.py)

Dividing two nonnegative integer pandas columns produces a float column
in which n/0 is +inf for n>0 and 0/0 is NaN; fillna(0) replaces NaN
only.  PFloat is that value domain. -/

inductive PFloat where
  | nan
  | inf
  | val (q : ℚ)
deriving DecidableEq

/-- Elementwise pandas division of two nonnegative integer columns. -/
def pdivCount (a b : Nat) : PFloat :=
  if b = 0 then (if a = 0 then .nan else .inf) else .val ((a : ℚ) / (b : ℚ))

def pmul100 : PFloat → PFloat
  | .nan => .nan
  | .inf => .inf
  | .val q => .val (q * 100)

/-- Series.fillna(0): NaN becomes 0, every other value is unchanged. -/
def pfillna0 : PFloat → PFloat
  | .nan => .val 0
  | x => x

/-- video_metrics.py line 21. -/
def likes_per_view_col (likes views : Nat) : PFloat :=
  pfillna0 (pmul100 (pdivCount likes views))

/-- video_metrics.py line 22. -/
def comments_per_view_col (comments views : Nat) : PFloat :=
  pfillna0 (pmul100 (pdivCount comments views))

/-- channel_metrics.py line 284: no fillna at all. -/
def engagement_ratio_col (likes views : Nat) : PFloat :=
  pdivCount likes views

/-! ## Well-formedness predicates and sample inputs -/

/-- Well-formedness of an item's publish timestamp: absent, empty, or
in the literal strptime format. -/
def validTs (v : StatItem) : Bool :=
  match v.snippet.bind Snippet.publishedAt with
  | none => true
  | some s => s == "" || (parseTimestamp s).isSome

/-- Well-formedness of one statistics item: its duration parses (or is
absent, via the PT0S default) and its timestamp is absent, empty or in
the literal format. -/
def wellFormed (v : StatItem) : Bool :=
  (durSecondsOf v).isSome && validTs v

/-- A snippet with an unparsable publish timestamp. -/
def snippetBadTs : Snippet :=
  { title := none, description := none, publishedAt := some "bad", thumbnailMediumUrl := none }

/-- A snippet with the timestamp "not-a-date". -/
def snippetNotADate : Snippet :=
  { title := none, description := none, publishedAt := some "not-a-date",
    thumbnailMediumUrl := none }

/-- A snippet with a timestamp in the literal format. -/
def snippetGoodTs : Snippet :=
  { title := some "T", description := none, publishedAt := some "2021-01-02T03:04:05Z",
    thumbnailMediumUrl := some "http://thumb" }

def itemNotADate : StatItem :=
  { id := some "x", snippet := some snippetNotADate, statistics := none, contentDetails := none }

def itemBadTs : StatItem :=
  { id := some "x", snippet := some snippetBadTs, statistics := none, contentDetails := none }

def itemGoodTs : StatItem :=
  { id := some "x", snippet := some snippetGoodTs, statistics := none, contentDetails := none }

/-- An item with no optional fields at all. -/
def itemBare : StatItem :=
  { id := some "y", snippet := none, statistics := none, contentDetails := none }

/-- An item whose publish timestamp is the empty string (falsy in
Python, so it takes the "Unknown" branch like an absent one). -/
def itemEmptyTs : StatItem :=
  { id := some "z",
    snippet := some { title := none, description := none, publishedAt := some "",
                      thumbnailMediumUrl := none },
    statistics := none, contentDetails := none }

/-- An item carrying only a parseable duration. -/
def itemDur : StatItem :=
  { id := some "x", snippet := none, statistics := none,
    contentDetails := some ⟨some "PT1H2M3S"⟩ }

/-- An item carrying only counts. -/
def itemCounts (idStr : String) (vw lk cm : Nat) : StatItem :=
  { id := some idStr,
    snippet := none,
    statistics := some { viewCount := some vw, likeCount := some lk, commentCount := some cm },
    contentDetails := none }

def c5Videos : SearchResults := ⟨[⟨some "a"⟩, ⟨some "b"⟩, ⟨some "c"⟩]⟩

def c5Stats : StatResults :=
  ⟨[itemCounts "a" 100 10 2, itemCounts "b" 50 5 1, itemCounts "c" 10 1 0]⟩

/-- The batch sizes produced by chunking a list of the given length. -/
def lenChunksFuel : Nat → Nat → List Nat
  | 0, _ => []
  | _ + 1, 0 => []
  | f + 1, n + 1 => min 50 (n + 1) :: lenChunksFuel f (n + 1 - 50)

/-- A provider that echoes every requested id. -/
def c4Fetch : String → Option StatItem := fun i =>
  some { id := some i, snippet := none, statistics := none, contentDetails := none }

def c8Key : String × String := ("KEY", "chan")

def c8Fetch : String × String → Nat → Nat := fun _ t => t

/-! ## Helper lemmas -/

theorem mapOption_length {f : α → Option β} {l : List α} {l' : List β}
    (h : mapOption f l = some l') : l'.length = l.length := by
  induction l generalizing l' with
  | nil => simp [mapOption] at h; simp [← h]
  | cons a rest ih =>
    simp only [mapOption, Option.bind_eq_bind, Option.bind_eq_some] at h
    obtain ⟨b, _, bs, hbs, hcons⟩ := h
    cases hcons
    simp [ih hbs]

theorem mapOption_forward {f : α → Option β} {l : List α} {l' : List β}
    (h : mapOption f l = some l') : ∀ a ∈ l, ∃ b ∈ l', f a = some b := by
  induction l generalizing l' with
  | nil => simp
  | cons x rest ih =>
    simp only [mapOption, Option.bind_eq_bind, Option.bind_eq_some] at h
    obtain ⟨b, hb, bs, hbs, hcons⟩ := h
    cases hcons
    intro a ha
    rcases List.mem_cons.mp ha with rfl | ha
    · exact ⟨b, List.mem_cons_self b bs, hb⟩
    · obtain ⟨b', hb', hfb'⟩ := ih hbs a ha
      exact ⟨b', List.mem_cons_of_mem b hb', hfb'⟩

theorem mapOption_backward {f : α → Option β} {l : List α} {l' : List β}
    (h : mapOption f l = some l') : ∀ b ∈ l', ∃ a ∈ l, f a = some b := by
  induction l generalizing l' with
  | nil =>
    simp [mapOption] at h
    subst h
    simp
  | cons x rest ih =>
    simp only [mapOption, Option.bind_eq_bind, Option.bind_eq_some] at h
    obtain ⟨b, hb, bs, hbs, hcons⟩ := h
    cases hcons
    intro c hc
    rcases List.mem_cons.mp hc with rfl | hc
    · exact ⟨x, List.mem_cons_self x rest, hb⟩
    · obtain ⟨a, ha, hfa⟩ := ih hbs c hc
      exact ⟨a, List.mem_cons_of_mem x ha, hfa⟩

theorem mapOption_isSome {f : α → Option β} {l : List α}
    (h : ∀ a ∈ l, (f a).isSome) : ∃ l', mapOption f l = some l' := by
  induction l with
  | nil => exact ⟨[], rfl⟩
  | cons a rest ih =>
    obtain ⟨b, hb⟩ := Option.isSome_iff_exists.mp (h a (List.mem_cons_self a rest))
    obtain ⟨bs, hbs⟩ := ih (fun x hx => h x (List.mem_cons_of_mem a hx))
    exact ⟨b :: bs, by simp [mapOption, hb, hbs]⟩

theorem mapOption_none {f : α → Option β} {l : List α} {a : α}
    (ha : a ∈ l) (hfa : f a = none) : mapOption f l = none := by
  induction l with
  | nil => simp at ha
  | cons x rest ih =>
    rcases List.mem_cons.mp ha with rfl | ha
    · simp [mapOption, hfa]
    · cases hfx : f x with
      | none => simp [mapOption, hfx]
      | some b => simp [mapOption, hfx, ih ha]

theorem insertByKey_perm (p : Option Nat × VideoRecord) (l : List (Option Nat × VideoRecord)) :
    (insertByKey p l).Perm (p :: l) := by
  induction l with
  | nil => simp [insertByKey]
  | cons q rest ih =>
    by_cases h : keyGE p.1 q.1
    · simp [insertByKey, h]
    · simp only [insertByKey, h, if_neg, Bool.false_eq_true, not_false_eq_true, ite_false]
      exact (List.Perm.cons q ih).trans (List.Perm.swap p q rest)

theorem sortRecsDesc_perm (l : List (Option Nat × VideoRecord)) :
    (sortRecsDesc l).Perm l := by
  induction l with
  | nil => simp [sortRecsDesc]
  | cons p rest ih =>
    exact (insertByKey_perm p (sortRecsDesc rest)).trans (List.Perm.cons p ih)

theorem floorq_div_nat (x : ℚ) (n : ℕ) (hn : 0 < n) : ⌊x / (n : ℚ)⌋ = ⌊x⌋ / (n : ℤ) := by
  have hnq : (0 : ℚ) < (n : ℚ) := by exact_mod_cast hn
  have hnz : (0 : ℤ) < (n : ℤ) := by exact_mod_cast hn
  apply eq_of_forall_le_iff
  intro z
  rw [Int.le_floor, le_div_iff₀ hnq,
    show (z : ℚ) * (n : ℚ) = ((z * (n : ℤ) : ℤ) : ℚ) by push_cast; ring,
    ← Int.le_floor, Int.le_ediv_iff_mul_le hnz]

theorem intPy_intCast (z : ℤ) : intPy ((z : ℚ)) = z := by
  unfold intPy
  split
  · exact Int.floor_intCast z
  · rw [show -((z : ℚ)) = (((-z : ℤ)) : ℚ) by push_cast; ring, Int.floor_intCast]
    ring

/-- The float divmod cascade of format_duration computes exactly the
floor decomposition the spec describes, for nonnegative inputs. -/
theorem format_duration_eq_spec (q : ℚ) (_hq : 0 ≤ q) :
    format_duration q = formatDurationSpec q := by
  have hm1 : ⌊q / (60 : ℚ)⌋ = ⌊q⌋ / 60 := by
    have := floorq_div_nat q 60 (by norm_num)
    norm_num at this
    exact this
  have hcast : ⌊((⌊q / (60 : ℚ)⌋ : ℚ)) / (60 : ℚ)⌋ = ⌊q / (60 : ℚ)⌋ / 60 := by
    have := Rat.floor_intCast_div_natCast ⌊q / (60 : ℚ)⌋ 60
    norm_num at this
    exact this
  have h3600 : ⌊q / (3600 : ℚ)⌋ = ⌊q / (60 : ℚ)⌋ / 60 := by
    have hqe : q / (3600 : ℚ) = (q / 60) / 60 := by ring
    rw [hqe]
    have := floorq_div_nat (q / 60) 60 (by norm_num)
    norm_num at this
    exact this
  have hs1nn : (0 : ℚ) ≤ q - 60 * ((⌊q / (60 : ℚ)⌋ : ℚ)) := by
    have hfl : ((⌊q / (60 : ℚ)⌋ : ℚ)) ≤ q / 60 := Int.floor_le _
    nlinarith
  have hs1 : intPy (q - 60 * ((⌊q / (60 : ℚ)⌋ : ℚ))) = ⌊q⌋ % 60 := by
    rw [intPy, if_pos hs1nn,
      show q - 60 * ((⌊q / (60 : ℚ)⌋ : ℚ)) = q - ((60 * ⌊q / (60 : ℚ)⌋ : ℤ) : ℚ) by push_cast; ring,
      Int.floor_sub_int, hm1, Int.emod_def]
  have hm2cast : ((⌊q / (60 : ℚ)⌋ : ℚ)) - 60 * (((⌊q / (60 : ℚ)⌋ / 60 : ℤ)) : ℚ) =
      (((⌊q / (60 : ℚ)⌋ % 60 : ℤ)) : ℚ) := by
    rw [Int.emod_def]
    push_cast
    ring
  simp only [format_duration, formatDurationSpec, divmodQ]
  rw [hcast, h3600, hm2cast, intPy_intCast, intPy_intCast, hs1]
  simp only [gt_iff_lt, Int.cast_pos]

theorem mkRecord_spec (v : StatItem) (h : wellFormed v = true) :
    ∃ r, mkRecord v = some r ∧
      r.id = v.id ∧
      r.title = (v.snippet.bind Snippet.title).getD "Unknown" ∧
      r.thumbnail = (v.snippet.bind Snippet.thumbnailMediumUrl).getD "" ∧
      r.published_at = v.snippet.bind Snippet.publishedAt ∧
      (v.snippet.bind Snippet.publishedAt = none → r.published_date = "Unknown") ∧
      (v.snippet.bind Snippet.publishedAt = some "" → r.published_date = "Unknown") ∧
      (toDatetime r.published_at).isSome := by
  rw [wellFormed, Bool.and_eq_true] at h
  obtain ⟨hd, hts⟩ := h
  have hd' : (parse_duration (durationIsoOf v)).isSome := by
    simpa [durSecondsOf, Option.isSome_map'] using hd
  obtain ⟨dur, hdur⟩ := Option.isSome_iff_exists.mp hd'
  rw [validTs] at hts
  unfold mkRecord
  rw [hdur]
  cases hpa : v.snippet.bind Snippet.publishedAt with
  | none =>
    exact ⟨_, rfl, rfl, rfl, rfl, rfl, fun _ => rfl, fun habs => Option.noConfusion habs, rfl⟩
  | some s =>
    rw [hpa] at hts
    by_cases hse : s = ""
    · subst hse
      exact ⟨_, rfl, rfl, rfl, rfl, rfl, fun habs => Option.noConfusion habs, fun _ => rfl,
        by simp [toDatetime]⟩
    · have hts' : (parseTimestamp s).isSome := by
        simpa [hse] using hts
      obtain ⟨dt, hdt⟩ := Option.isSome_iff_exists.mp hts'
      simp only [if_neg hse, hdt, Option.map_some']
      exact ⟨_, rfl, rfl, rfl, rfl, rfl,
        fun habs => (Option.some_ne_none s habs).elim,
        fun habs => (hse (Option.some.inj habs)).elim, by simp [toDatetime, hse, hdt]⟩

theorem mkRecord_none_of_dur {v : StatItem} (h : durSecondsOf v = none) :
    mkRecord v = none := by
  have hp : parse_duration (durationIsoOf v) = none := by
    simpa [durSecondsOf, Option.map_eq_none'] using h
  unfold mkRecord
  rw [hp]
  rfl

theorem mkRecord_none_of_ts {v : StatItem} {s : String}
    (hpa : v.snippet.bind Snippet.publishedAt = some s) (hse : s ≠ "")
    (hts : parseTimestamp s = none) : mkRecord v = none := by
  unfold mkRecord
  cases hd : parse_duration (durationIsoOf v) with
  | none => rfl
  | some dur =>
    simp only [Option.bind_eq_bind, Option.some_bind, hpa, if_neg hse, hts]
    rfl

theorem process_video_statistics_spec (videos : SearchResults) (stats : StatResults)
    (h1 : videos.items ≠ []) (h2 : stats.items ≠ [])
    (h3 : ∀ v ∈ stats.items, wellFormed v = true) :
    ∃ t, process_video_statistics videos stats = some t ∧
      t.length = stats.items.length ∧
      (∀ v ∈ stats.items, ∃ r ∈ t, mkRecord v = some r) ∧
      (∀ r ∈ t, ∃ v ∈ stats.items, mkRecord v = some r) := by
  have g1 : videos.items.isEmpty = false := by
    simpa [List.isEmpty_iff] using h1
  have g2 : stats.items.isEmpty = false := by
    simpa [List.isEmpty_iff] using h2
  obtain ⟨recs, hrecs⟩ := mapOption_isSome (l := stats.items) (f := mkRecord)
    (fun v hv => by
      obtain ⟨r, hr, -⟩ := mkRecord_spec v (h3 v hv)
      simp [hr])
  have hkeyfn : ∀ r ∈ recs, ((toDatetime r.published_at).map (fun k => (k, r))).isSome := by
    intro r hr
    obtain ⟨v, hv, hmk⟩ := mapOption_backward hrecs r hr
    obtain ⟨r', hr', -, -, -, -, -, -, hkey⟩ := mkRecord_spec v (h3 v hv)
    rw [hmk] at hr'
    cases hr'
    simpa [Option.isSome_map'] using hkey
  obtain ⟨keyed, hkeyed⟩ :=
    mapOption_isSome (l := recs) (f := fun r => (toDatetime r.published_at).map (fun k => (k, r)))
      hkeyfn
  refine ⟨(sortRecsDesc keyed).map Prod.snd, ?_, ?_, ?_, ?_⟩
  · unfold process_video_statistics
    rw [g1, g2]
    simp only [Bool.or_self, Bool.false_eq_true, if_false, hrecs, hkeyed,
      Option.bind_eq_bind, Option.some_bind]
  · rw [List.length_map, (sortRecsDesc_perm keyed).length_eq, mapOption_length hkeyed,
      mapOption_length hrecs]
  · intro v hv
    obtain ⟨r, hrrecs, hmk⟩ := mapOption_forward hrecs v hv
    obtain ⟨p, hpkeyed, hp⟩ := mapOption_forward hkeyed r hrrecs
    obtain ⟨k, -, hkp⟩ := Option.map_eq_some'.mp hp
    refine ⟨r, ?_, hmk⟩
    have hmem : p ∈ sortRecsDesc keyed := ((sortRecsDesc_perm keyed).mem_iff).mpr hpkeyed
    have hmem2 := List.mem_map_of_mem Prod.snd hmem
    rwa [← hkp] at hmem2
  · intro r hr
    obtain ⟨p, hpsorted, hpr⟩ := List.mem_map.mp hr
    have hpk : p ∈ keyed := ((sortRecsDesc_perm keyed).mem_iff).mp hpsorted
    obtain ⟨r', hr'recs, hmap⟩ := mapOption_backward hkeyed p hpk
    obtain ⟨k, -, hkp⟩ := Option.map_eq_some'.mp hmap
    have hr'r : r' = r := by
      rw [← hkp] at hpr
      simpa using hpr
    subst hr'r
    exact mapOption_backward hrecs r' hr'recs

theorem chunksFuel_join (fuel : Nat) : ∀ l : List String, l.length ≤ fuel →
    (chunksFuel fuel l).flatten = l := by
  induction fuel with
  | zero =>
    intro l h
    have hl : l = [] := List.eq_nil_of_length_eq_zero (Nat.le_zero.mp h)
    simp [hl, chunksFuel]
  | succ fuel ih =>
    intro l h
    cases l with
    | nil => simp [chunksFuel]
    | cons x xs =>
      have hd : (List.drop 50 (x :: xs)).length ≤ fuel := by
        rw [List.length_drop]
        simp only [List.length_cons] at h ⊢
        omega
      simp only [chunksFuel, List.flatten_cons]
      rw [ih _ hd, List.take_append_drop]

theorem chunksFuel_size (fuel : Nat) : ∀ (l c : List String),
    c ∈ chunksFuel fuel l → c.length ≤ 50 := by
  induction fuel with
  | zero =>
    intro l c hc
    simp [chunksFuel] at hc
  | succ fuel ih =>
    intro l c hc
    cases l with
    | nil => simp [chunksFuel] at hc
    | cons x xs =>
      simp only [chunksFuel, List.mem_cons] at hc
      rcases hc with rfl | hc
      · simp only [List.length_take]
        omega
      · exact ih _ _ hc

theorem chunksFuel_count (fuel : Nat) : ∀ l : List String, l.length ≤ fuel →
    (chunksFuel fuel l).length = (l.length + 49) / 50 := by
  induction fuel with
  | zero =>
    intro l h
    have hl : l = [] := List.eq_nil_of_length_eq_zero (Nat.le_zero.mp h)
    simp [hl, chunksFuel]
  | succ fuel ih =>
    intro l h
    cases l with
    | nil => simp [chunksFuel]
    | cons x xs =>
      have hd : (List.drop 50 (x :: xs)).length ≤ fuel := by
        rw [List.length_drop]
        simp only [List.length_cons] at h ⊢
        omega
      simp only [chunksFuel, List.length_cons, ih _ hd, List.length_drop, List.length_cons]
      omega

theorem chunksFuel_lens (fuel : Nat) : ∀ l : List String, l.length ≤ fuel →
    (chunksFuel fuel l).map List.length = lenChunksFuel fuel l.length := by
  induction fuel with
  | zero =>
    intro l h
    have hl : l = [] := List.eq_nil_of_length_eq_zero (Nat.le_zero.mp h)
    simp [hl, chunksFuel, lenChunksFuel]
  | succ fuel ih =>
    intro l h
    cases l with
    | nil => rfl
    | cons x xs =>
      have hd : (List.drop 50 (x :: xs)).length ≤ fuel := by
        rw [List.length_drop]
        simp only [List.length_cons] at h ⊢
        omega
      simp only [chunksFuel, List.map_cons, List.length_take, List.length_cons,
        lenChunksFuel, ih _ hd, List.length_drop]

theorem flatten_filterMap (f : String → Option StatItem) (L : List (List String)) :
    (L.map (fun c => c.filterMap f)).flatten = L.flatten.filterMap f := by
  induction L with
  | nil => simp
  | cons c rest ih => simp only [List.map_cons, List.flatten_cons, List.filterMap_append, ih]

/-- Any partition into batches of size at most 50 uses at least the
ceiling of length over 50 many batches. -/
theorem chunk_min (P : List (List String)) (hP : ∀ c ∈ P, c.length ≤ 50) :
    (P.flatten.length + 49) / 50 ≤ P.length := by
  induction P with
  | nil => simp
  | cons c rest ih =>
    have hc := hP c (List.mem_cons_self c rest)
    have ihr := ih (fun d hd => hP d (List.mem_cons_of_mem c hd))
    simp only [List.flatten_cons, List.length_append, List.length_cons]
    omega

theorem filterMap_ids_sublist (fetch : String → Option StatItem)
    (hid : ∀ i it, fetch i = some it → it.id = some i) (l : List String) :
    ((l.filterMap fetch).map StatItem.id).Sublist (l.map some) := by
  induction l with
  | nil => simp
  | cons x xs ih =>
    cases hx : fetch x with
    | none =>
      simp only [List.filterMap_cons, hx, List.map_cons]
      exact ih.cons (some x)
    | some it =>
      simp only [List.filterMap_cons, hx, List.map_cons, hid x it hx]
      exact ih.cons₂ (some x)

/-- The PT0S default: an absent duration key contributes exactly 0
seconds. -/
theorem durSecondsOf_default {v : StatItem}
    (hv : v.contentDetails.bind ContentDetails.duration = none) :
    durSecondsOf v = some 0 := by
  have h1 : parse_duration "PT0S" = some ⟨0, 0, 0⟩ := by
    simp [parse_duration, tryComp, readNumber, digitsToNat]
  rw [durSecondsOf, durationIsoOf, hv, Option.getD_none, h1]
  simp [Duration.total_seconds]

theorem accumChannel_eq (l : List StatItem) (h : ∀ v ∈ l, (durSecondsOf v).isSome) :
    accumChannel l = some ((l.map viewsOf).sum, (l.map likesOf).sum, (l.map commentsOf).sum,
      (l.map (fun v => (durSecondsOf v).getD 0)).sum) := by
  induction l with
  | nil => simp [accumChannel]
  | cons v rest ih =>
    obtain ⟨d, hd⟩ :=
      Option.isSome_iff_exists.mp (h v (List.mem_cons_self v rest))
    rw [accumChannel, hd, ih (fun w hw => h w (List.mem_cons_of_mem v hw))]
    simp [hd]

theorem accumChannel_isSome (l : List StatItem) (h : ∀ v ∈ l, (durSecondsOf v).isSome) :
    (accumChannel l).isSome := by
  rw [accumChannel_eq l h]
  rfl

theorem accumChannel_none {l : List StatItem} {v : StatItem}
    (hv : v ∈ l) (hd : durSecondsOf v = none) : accumChannel l = none := by
  induction l with
  | nil => simp at hv
  | cons x rest ih =>
    rcases List.mem_cons.mp hv with rfl | hv
    · simp [accumChannel, hd]
    · cases hx : durSecondsOf x with
      | none => simp [accumChannel, hx]
      | some d => simp [accumChannel, hx, ih hv]

/-! ## The claims -/

/-- C1 counterexample: with views = 0 and likes = 1 the likes_per_view
column is +infinity, not 0 (fillna(0) only replaces the NaN produced by
0/0), and the engagement-ratio column at likes = views = 0 is NaN, so
the claimed "exactly 0 when views = 0 for any likes value" is false on
the code. -/
theorem c1_counterexample :
    likes_per_view_col 1 0 = PFloat.inf ∧ likes_per_view_col 1 0 ≠ PFloat.val 0 ∧
    engagement_ratio_col 0 0 = PFloat.nan ∧ engagement_ratio_col 0 0 ≠ PFloat.val 0 := by
  refine ⟨by decide, by decide, by decide, by decide⟩

/-- C1 (amended): when views = 0 the derived per-view percentage
columns are 0 exactly when the numerator is also 0 (0/0 is NaN and
fillna(0) replaces it); a positive numerator over 0 views yields
+infinity, which fillna(0) does not replace; the engagement-ratio
column has no replacement at all, so at views = 0 it is NaN for
likes = 0 and +infinity otherwise.  With positive views every column is
the finite quotient and no division error occurs in any case. -/
theorem c1_per_view_columns (likes comments views : Nat) :
    (views = 0 → likes = 0 → likes_per_view_col likes views = PFloat.val 0) ∧
    (views = 0 → 0 < likes → likes_per_view_col likes views = PFloat.inf) ∧
    (0 < views → likes_per_view_col likes views = PFloat.val ((likes : ℚ) / (views : ℚ) * 100)) ∧
    (views = 0 → comments = 0 → comments_per_view_col comments views = PFloat.val 0) ∧
    (views = 0 → 0 < comments → comments_per_view_col comments views = PFloat.inf) ∧
    (0 < views →
      comments_per_view_col comments views = PFloat.val ((comments : ℚ) / (views : ℚ) * 100)) ∧
    (views = 0 → likes = 0 → engagement_ratio_col likes views = PFloat.nan) ∧
    (views = 0 → 0 < likes → engagement_ratio_col likes views = PFloat.inf) ∧
    (0 < views → engagement_ratio_col likes views = PFloat.val ((likes : ℚ) / (views : ℚ))) := by
  unfold likes_per_view_col comments_per_view_col engagement_ratio_col pdivCount pmul100 pfillna0
  refine ⟨?_, ?_, ?_, ?_, ?_, ?_, ?_, ?_, ?_⟩
  · intro hv hl
    simp [hv, hl]
  · intro hv hl
    simp [hv, Nat.pos_iff_ne_zero.mp hl]
  · intro hv
    simp [Nat.pos_iff_ne_zero.mp hv]
  · intro hv hc
    simp [hv, hc]
  · intro hv hc
    simp [hv, Nat.pos_iff_ne_zero.mp hc]
  · intro hv
    simp [Nat.pos_iff_ne_zero.mp hv]
  · intro hv hl
    simp [hv, hl]
  · intro hv hl
    simp [hv, Nat.pos_iff_ne_zero.mp hl]
  · intro hv
    simp [Nat.pos_iff_ne_zero.mp hv]

/-- C1 witness: the amended characterization applied at concrete
likes = 2, comments = 3, views = 4. -/
theorem c1_witness :
    0 < 4 ∧ likes_per_view_col 2 4 = PFloat.val ((2 : ℚ) / (4 : ℚ) * 100) :=
  ⟨by decide, (c1_per_view_columns 2 3 4).2.2.1 (by decide)⟩

/-- C6: process_channel_statistics returns the all-zero summary
whenever search_results has no items or statistics_results has no
items. -/
theorem c6_zero_summary (videos : SearchResults) (stats : StatResults)
    (h : videos.items.length = 0 ∨ stats.items = []) :
    process_channel_statistics videos stats = some zeroChannelStats ∧
    zeroChannelStats =
      { video_count := 0, avg_views := 0, avg_likes := 0, avg_comments := 0,
        avg_duration_seconds := 0, total_views := 0, total_likes := 0,
        total_comments := 0 } := by
  refine ⟨?_, rfl⟩
  unfold process_channel_statistics
  rcases h with h | h
  · simp [h]
  · simp [h]

/-- C6 witness: one search item and an empty statistics envelope. -/
theorem c6_witness :
    process_channel_statistics ⟨[⟨some "v"⟩]⟩ ⟨[]⟩ = some zeroChannelStats :=
  (c6_zero_summary ⟨[⟨some "v"⟩]⟩ ⟨[]⟩ (Or.inr rfl)).1

/-- C7: format_duration agrees, on every nonnegative input, with the
spec's rendering by the floor decomposition into hours, minutes and
seconds (hours branch when hours > 0, minutes branch when minutes > 0
and hours = 0, else seconds only), and takes the three specified
values. -/
theorem c7_format_duration :
    (∀ q : ℚ, 0 ≤ q → format_duration q = formatDurationSpec q) ∧
    format_duration 0 = "0s" ∧ format_duration 65 = "1m 5s" ∧
    format_duration 3661 = "1h 1m 1s" := by
  refine ⟨format_duration_eq_spec, ?_, ?_, ?_⟩ <;>
    · norm_num [format_duration, divmodQ, intPy]
      decide

/-- C7 witness: the structural part applied at the concrete input 125. -/
theorem c7_witness : (0 : ℚ) ≤ 125 ∧ format_duration 125 = formatDurationSpec 125 :=
  ⟨by norm_num, c7_format_duration.1 125 (by norm_num)⟩

/-- C10: every HttpError with status 403 — whatever its underlying
reason — yields the silent empty-items success, indistinguishable from
a video with no comments, while every other HttpError yields a
displayed error and a None result. -/
theorem c10_comments_403 :
    (∀ reason : String, get_video_comments (.httpErr 403 reason) = (none, some ⟨[]⟩)) ∧
    (∀ reason : String,
      get_video_comments (.httpErr 403 reason) = get_video_comments (.ok ⟨[]⟩)) ∧
    (∀ status reason, status ≠ 403 →
      get_video_comments (.httpErr status reason) =
        (some ("Error fetching video comments: " ++ reason), none)) := by
  refine ⟨fun r => rfl, fun r => rfl, fun s r hs => ?_⟩
  simp [get_video_comments, hs]

/-- C10 witness: status 403 with a quota reason versus status 500. -/
theorem c10_witness :
    get_video_comments (.httpErr 403 "quotaExceeded") = (none, some ⟨[]⟩) ∧
    (500 ≠ 403 ∧
      get_video_comments (.httpErr 500 "boom") =
        (some ("Error fetching video comments: " ++ "boom"), none)) :=
  ⟨c10_comments_403.1 "quotaExceeded", by decide, c10_comments_403.2.2 500 "boom" (by decide)⟩

/-- C2 counterexample: with search_results empty and one statistics
item present, the line-68 guard returns an empty table, so the item
yields no record even though its id is (vacuously) absent from the
empty search-result lookup. -/
theorem c2_counterexample :
    process_video_statistics ⟨[]⟩
        ⟨[{ id := some "x", snippet := none, statistics := none, contentDetails := none }]⟩ =
      some [] ∧
    (⟨[{ id := some "x", snippet := none, statistics := none, contentDetails := none }]⟩ :
      StatResults).items.length = 1 :=
  ⟨by decide, rfl⟩

/-- C2 (amended): provided both item lists are nonempty (the guard on
line 68 otherwise returns an empty table) and the items are
well-formed, every statistics item — whether or not its id occurs in
the search-result lookup, which the function never consults after
building it — yields exactly one record, whose title and thumbnail come
from the statistics item's own snippet. -/
theorem c2_join_nonblocking (videos : SearchResults) (stats : StatResults)
    (h1 : videos.items ≠ []) (h2 : stats.items ≠ [])
    (h3 : ∀ v ∈ stats.items, wellFormed v = true) :
    ∃ t, process_video_statistics videos stats = some t ∧
      t.length = stats.items.length ∧
      ∀ v ∈ stats.items, ∃ r ∈ t,
        r.id = v.id ∧
        r.title = (v.snippet.bind Snippet.title).getD "Unknown" ∧
        r.thumbnail = (v.snippet.bind Snippet.thumbnailMediumUrl).getD "" := by
  obtain ⟨t, hteq, htlen, hfwd, -⟩ := process_video_statistics_spec videos stats h1 h2 h3
  refine ⟨t, hteq, htlen, ?_⟩
  intro v hv
  obtain ⟨r, hrt, hmk⟩ := hfwd v hv
  obtain ⟨r', hr', hid, htitle, hthumb, -, -, -, -⟩ := mkRecord_spec v (h3 v hv)
  rw [hmk] at hr'
  cases hr'
  exact ⟨r, hrt, hid, htitle, hthumb⟩

/-- C2 witness: one search item without a videoId, so the lookup is
empty, and one statistics item whose id "x" is absent from it; the
amended theorem still yields one record per statistics item. -/
theorem c2_witness :
    videoSearchLookup ⟨[⟨none⟩]⟩ = [] ∧
    (∃ t, process_video_statistics ⟨[⟨none⟩]⟩ ⟨[itemGoodTs]⟩ = some t ∧
      t.length = (⟨[itemGoodTs]⟩ : StatResults).items.length ∧
      ∀ v ∈ (⟨[itemGoodTs]⟩ : StatResults).items, ∃ r ∈ t,
        r.id = v.id ∧
        r.title = (v.snippet.bind Snippet.title).getD "Unknown" ∧
        r.thumbnail = (v.snippet.bind Snippet.thumbnailMediumUrl).getD "") :=
  ⟨by decide, c2_join_nonblocking _ _ (by decide) (by decide) (by decide)⟩

/-- C3 counterexample: a statistics item with the present but
unparsable timestamp "not-a-date" makes the whole call raise (strptime
ValueError), rather than yielding an "Unknown" record. -/
theorem c3_counterexample :
    itemNotADate.snippet.bind Snippet.publishedAt = some "not-a-date" ∧
    process_video_statistics ⟨[⟨some "a"⟩]⟩ ⟨[itemNotADate]⟩ = none :=
  ⟨by decide, by decide⟩

/-- C3 (amended): an absent publish timestamp — or the empty string,
which is equally falsy — yields the literal "Unknown" display date and
the record is retained; but a present, nonempty timestamp outside the
literal format makes the whole call raise (only None and "" reach the
"Unknown" branch, a malformed string reaches strptime). -/
theorem c3_unknown_date :
    (∀ (videos : SearchResults) (stats : StatResults), videos.items ≠ [] → stats.items ≠ [] →
      (∀ v ∈ stats.items, wellFormed v = true) →
      ∃ t, process_video_statistics videos stats = some t ∧
        t.length = stats.items.length ∧
        ∀ v ∈ stats.items,
          (v.snippet.bind Snippet.publishedAt = none ∨
            v.snippet.bind Snippet.publishedAt = some "") →
          ∃ r ∈ t, r.id = v.id ∧ r.published_at = v.snippet.bind Snippet.publishedAt ∧
            r.published_date = "Unknown") ∧
    (∀ (videos : SearchResults) (stats : StatResults) (v : StatItem) (s : String),
      videos.items ≠ [] → v ∈ stats.items →
      v.snippet.bind Snippet.publishedAt = some s → s ≠ "" → parseTimestamp s = none →
      process_video_statistics videos stats = none) := by
  constructor
  · intro videos stats h1 h2 h3
    obtain ⟨t, hteq, htlen, hfwd, -⟩ := process_video_statistics_spec videos stats h1 h2 h3
    refine ⟨t, hteq, htlen, ?_⟩
    intro v hv hpa
    obtain ⟨r, hrt, hmk⟩ := hfwd v hv
    obtain ⟨r', hr', hid, -, -, hpat, hunk_none, hunk_empty, -⟩ := mkRecord_spec v (h3 v hv)
    rw [hmk] at hr'
    cases hr'
    rcases hpa with hpa | hpa
    · exact ⟨r, hrt, hid, hpat, hunk_none hpa⟩
    · exact ⟨r, hrt, hid, hpat, hunk_empty hpa⟩
  · intro videos stats v s h1 hv hpa hse hts
    have hmk : mkRecord v = none := mkRecord_none_of_ts hpa hse hts
    have g1 : videos.items.isEmpty = false := by
      simpa [List.isEmpty_iff] using h1
    have g2 : stats.items.isEmpty = false := by
      simpa [List.isEmpty_iff] using List.ne_nil_of_mem hv
    unfold process_video_statistics
    rw [g1, g2]
    simp [mapOption_none hv hmk]

/-- C3 witness: a statistics item with no publishedAt key and one with
the empty-string timestamp are both retained with the "Unknown"
display date. -/
theorem c3_witness :
    ∃ t, process_video_statistics ⟨[⟨some "a"⟩]⟩ ⟨[itemBare, itemEmptyTs]⟩ = some t ∧
      t.length = (⟨[itemBare, itemEmptyTs]⟩ : StatResults).items.length ∧
      ∀ v ∈ (⟨[itemBare, itemEmptyTs]⟩ : StatResults).items,
        (v.snippet.bind Snippet.publishedAt = none ∨
          v.snippet.bind Snippet.publishedAt = some "") →
        ∃ r ∈ t, r.id = v.id ∧ r.published_at = v.snippet.bind Snippet.publishedAt ∧
          r.published_date = "Unknown" :=
  c3_unknown_date.1 _ _ (by decide) (by decide) (by decide)

/-- C5: with nonempty search items, nonempty statistics items and
parseable durations, process_channel_statistics returns exactly the
sums of the per-item counts (missing numeric fields as 0, absent
durations as 0 via the PT0S default) and each average is the
corresponding total divided by the number of search items. -/
theorem c5_aggregate (videos : SearchResults) (stats : StatResults)
    (h1 : videos.items.length ≠ 0) (h2 : stats.items ≠ [])
    (h3 : ∀ v ∈ stats.items, (durSecondsOf v).isSome) :
    process_channel_statistics videos stats = some {
      video_count := videos.items.length
      avg_views := ((stats.items.map viewsOf).sum : ℚ) / (videos.items.length : ℚ)
      avg_likes := ((stats.items.map likesOf).sum : ℚ) / (videos.items.length : ℚ)
      avg_comments := ((stats.items.map commentsOf).sum : ℚ) / (videos.items.length : ℚ)
      avg_duration_seconds :=
        (stats.items.map (fun v => (durSecondsOf v).getD 0)).sum / (videos.items.length : ℚ)
      total_views := (stats.items.map viewsOf).sum
      total_likes := (stats.items.map likesOf).sum
      total_comments := (stats.items.map commentsOf).sum } ∧
    (∀ v : StatItem, v.statistics = none →
      viewsOf v = 0 ∧ likesOf v = 0 ∧ commentsOf v = 0) ∧
    (∀ v : StatItem, v.contentDetails.bind ContentDetails.duration = none →
      durSecondsOf v = some 0) := by
  refine ⟨?_, fun v hv => by simp [viewsOf, likesOf, commentsOf, hv], fun v hv => ?_⟩
  · unfold process_channel_statistics
    have hbeq : (videos.items.length == 0) = false := by
      simpa using h1
    have hie : stats.items.isEmpty = false := by
      simpa [List.isEmpty_iff] using h2
    have hpos : videos.items.length > 0 := Nat.pos_of_ne_zero h1
    simp only [hbeq, hie, Bool.or_self, Bool.false_eq_true, if_false]
    rw [accumChannel_eq stats.items h3]
    simp only [Option.bind_eq_bind, Option.some_bind]
    rw [if_pos hpos, if_pos hpos, if_pos hpos, if_pos hpos]
  · exact durSecondsOf_default hv

/-- C5 witness: the spec's own scenario, three videos with views
100/50/10 and likes 10/5/1: total views 160 and averages equal to the
totals over three. -/
theorem c5_witness :
    c5Videos.items.length ≠ 0 ∧
    process_channel_statistics c5Videos c5Stats = some {
      video_count := c5Videos.items.length
      avg_views := ((c5Stats.items.map viewsOf).sum : ℚ) / (c5Videos.items.length : ℚ)
      avg_likes := ((c5Stats.items.map likesOf).sum : ℚ) / (c5Videos.items.length : ℚ)
      avg_comments := ((c5Stats.items.map commentsOf).sum : ℚ) / (c5Videos.items.length : ℚ)
      avg_duration_seconds :=
        (c5Stats.items.map (fun v => (durSecondsOf v).getD 0)).sum / (c5Videos.items.length : ℚ)
      total_views := (c5Stats.items.map viewsOf).sum
      total_likes := (c5Stats.items.map likesOf).sum
      total_comments := (c5Stats.items.map commentsOf).sum } ∧
    (c5Stats.items.map viewsOf).sum = 160 ∧
    (c5Stats.items.map likesOf).sum = 16 ∧
    c5Videos.items.length = 3 :=
  ⟨by decide, (c5_aggregate c5Videos c5Stats (by decide) (by decide) (by decide)).1,
    by decide, by decide, by decide⟩

/-- C9 counterexample: one item whose duration field is absent (so the
duration precondition holds) but whose timestamp is the unparsable
"bad" makes build_video_table raise, so the duration precondition alone
does not make both aggregations total. -/
theorem c9_counterexample :
    (∀ v ∈ (⟨[itemBadTs]⟩ : StatResults).items,
      v.contentDetails.bind ContentDetails.duration = none) ∧
    process_video_statistics ⟨[⟨some "a"⟩]⟩ ⟨[itemBadTs]⟩ = none :=
  ⟨by decide, by decide⟩

/-- C9 (amended): process_channel_statistics is total exactly under the
duration precondition; process_video_statistics needs in addition every
present nonempty timestamp to be in the literal format; one invalid
duration string makes both calls raise (given the guards pass) rather
than skip the item or count it as 0; an absent duration contributes 0
seconds via the PT0S default. -/
theorem c9_duration_totality :
    (∀ (videos : SearchResults) (stats : StatResults),
      (∀ v ∈ stats.items, (durSecondsOf v).isSome) →
      (process_channel_statistics videos stats).isSome) ∧
    (∀ (videos : SearchResults) (stats : StatResults),
      (∀ v ∈ stats.items, wellFormed v = true) →
      (process_video_statistics videos stats).isSome) ∧
    (∀ (videos : SearchResults) (stats : StatResults) (v : StatItem),
      videos.items.length ≠ 0 → v ∈ stats.items → durSecondsOf v = none →
      process_channel_statistics videos stats = none ∧
      process_video_statistics videos stats = none) ∧
    (∀ v : StatItem, v.contentDetails.bind ContentDetails.duration = none →
      durSecondsOf v = some 0) := by
  refine ⟨?_, ?_, ?_, ?_⟩
  · intro videos stats h3
    unfold process_channel_statistics
    by_cases hg : (videos.items.length == 0 || stats.items.isEmpty) = true
    · simp only [if_pos hg]
      rfl
    · simp only [if_neg hg]
      rw [accumChannel_eq stats.items h3]
      rfl
  · intro videos stats h3
    by_cases h1 : videos.items = []
    · unfold process_video_statistics
      simp [h1]
    by_cases h2 : stats.items = []
    · unfold process_video_statistics
      simp [h2]
    obtain ⟨t, hteq, -⟩ := process_video_statistics_spec videos stats h1 h2 h3
    rw [hteq]
    rfl
  · intro videos stats v h1 hv hd
    constructor
    · unfold process_channel_statistics
      have hbeq : (videos.items.length == 0) = false := by
        simpa using h1
      have hie : stats.items.isEmpty = false := by
        simpa [List.isEmpty_iff] using List.ne_nil_of_mem hv
      simp only [hbeq, hie, Bool.or_self, Bool.false_eq_true, if_false]
      rw [accumChannel_none hv hd]
      rfl
    · have g1 : videos.items.isEmpty = false := by
        rcases hx : videos.items with - | ⟨x, rest⟩
        · exact absurd (by simp [hx]) h1
        · rfl
      have g2 : stats.items.isEmpty = false := by
        simpa [List.isEmpty_iff] using List.ne_nil_of_mem hv
      have hm := mapOption_none hv (mkRecord_none_of_dur hd)
      unfold process_video_statistics
      rw [g1, g2]
      simp only [Bool.or_self, Bool.false_eq_true, if_false, hm, Option.bind_eq_bind,
        Option.none_bind]
  · intro v hv
    exact durSecondsOf_default hv

/-- C9 witness: the channel-side totality applied to one item with a
parseable duration. -/
theorem c9_witness :
    (∀ v ∈ (⟨[itemDur]⟩ : StatResults).items, (durSecondsOf v).isSome) ∧
    (process_channel_statistics ⟨[⟨some "a"⟩]⟩ ⟨[itemDur]⟩).isSome :=
  ⟨by decide, c9_duration_totality.1 _ _ (by decide)⟩

/-- C4: get_videos_statistics on the empty id list issues no request
and succeeds with an empty envelope; otherwise it issues exactly the
minimum number of batches, each of at most 50 ids (for 120 ids: three
batches of 50, 50 and 20), and its merged items are exactly the union
of the per-chunk results — the ids' images under the provider — with no
duplicate ids when the input ids are distinct and the provider answers
each requested id with an item carrying that id. -/
theorem c4_chunking (fetch : String → Option StatItem) (ids : List String)
    (hid : ∀ i it, fetch i = some it → it.id = some i) (hnd : ids.Nodup) :
    cached_videos_statistics fetch [] = (⟨[]⟩, 0) ∧
    (∀ c ∈ chunk50 ids, c.length ≤ 50) ∧
    (ids ≠ [] → (cached_videos_statistics fetch ids).2 = (ids.length + 49) / 50) ∧
    (∀ P : List (List String), P.flatten = ids → (∀ c ∈ P, c.length ≤ 50) →
      (ids.length + 49) / 50 ≤ P.length) ∧
    (cached_videos_statistics fetch ids).1.items = ids.filterMap fetch ∧
    ((cached_videos_statistics fetch ids).1.items.map StatItem.id).Nodup ∧
    (ids.length = 120 → (chunk50 ids).map List.length = [50, 50, 20]) := by
  have hitems : (cached_videos_statistics fetch ids).1.items = ids.filterMap fetch := by
    unfold cached_videos_statistics
    by_cases hids : ids = []
    · simp [hids]
    · rw [if_neg hids]
      simp only
      rw [flatten_filterMap, chunk50, chunksFuel_join ids.length ids le_rfl]
  refine ⟨rfl, ?_, ?_, ?_, hitems, ?_, ?_⟩
  · intro c hc
    exact chunksFuel_size ids.length ids c hc
  · intro hids
    unfold cached_videos_statistics
    rw [if_neg hids]
    exact chunksFuel_count ids.length ids le_rfl
  · intro P hPj hPs
    rw [← hPj]
    exact chunk_min P hPs
  · rw [hitems]
    have hsub := filterMap_ids_sublist fetch hid ids
    exact hsub.nodup (hnd.map (fun a b h => Option.some_injective String h))
  · intro h120
    rw [chunk50, chunksFuel_lens ids.length ids le_rfl, h120]
    decide

/-- C4 witness: an echoing provider over three distinct ids returns the
three items once each. -/
theorem c4_witness :
    (["a", "b", "c"] : List String).Nodup ∧
    (cached_videos_statistics c4Fetch ["a", "b", "c"]).1.items.map StatItem.id =
      [some "a", some "b", some "c"] ∧
    ((cached_videos_statistics c4Fetch ["a", "b", "c"]).1.items.map StatItem.id).Nodup :=
  ⟨by decide, by decide,
    (c4_chunking c4Fetch ["a", "b", "c"]
      (fun i it h => by injection h with h2; rw [← h2]) (by decide)).2.2.2.2.2.1⟩

/-- C8: through the TTL cache modelled from the spec, a first call on a
cold key fetches and stores; a second call with the identical key while
the entry is inside the one-hour window returns the stored response
without a network fetch; a call at or past the window's end fetches
again and returns whatever the network now answers, which may differ. -/
theorem c8_cache {κ ρ : Type} [DecidableEq κ] (fetch : κ → Nat → ρ) (k : κ)
    (t0 t1 t2 : Nat) (c : Cache κ ρ)
    (hmiss : c.entries.find? (fun e => e.1 == k) = none)
    (h1w : t1 < t0 + 3600) (h2w : t0 + 3600 ≤ t2) :
    cachedCall fetch 3600 k t0 c =
      (fetch k t0, ⟨(k, t0, fetch k t0) :: c.entries⟩, true) ∧
    cachedCall fetch 3600 k t1 ⟨(k, t0, fetch k t0) :: c.entries⟩ =
      (fetch k t0, ⟨(k, t0, fetch k t0) :: c.entries⟩, false) ∧
    (cachedCall fetch 3600 k t2 ⟨(k, t0, fetch k t0) :: c.entries⟩).1 = fetch k t2 ∧
    (cachedCall fetch 3600 k t2 ⟨(k, t0, fetch k t0) :: c.entries⟩).2.2 = true := by
  have hfind : ∀ (t : Nat) (r : ρ),
      (((k, t, r) :: c.entries).find? (fun e => e.1 == k)) = some (k, t, r) := by
    intro t r
    simp [List.find?_cons_of_pos]
  refine ⟨?_, ?_, ?_, ?_⟩
  · unfold cachedCall lookupFresh
    rw [hmiss]
  · unfold cachedCall lookupFresh
    rw [hfind t0 (fetch k t0)]
    simp only [if_pos h1w]
  · unfold cachedCall lookupFresh
    rw [hfind t0 (fetch k t0)]
    simp only [if_neg (by omega : ¬ t2 < t0 + 3600)]
  · unfold cachedCall lookupFresh
    rw [hfind t0 (fetch k t0)]
    simp only [if_neg (by omega : ¬ t2 < t0 + 3600)]

/-- C8 witness: a key made of an API-key and channel-id pair, a fetch
that answers with the current time: the second call inside the window
repeats the first response with no network flag, the call at expiry
fetches a different response. -/
theorem c8_witness :
    ((⟨[]⟩ : Cache (String × String) Nat).entries.find? (fun e => e.1 == c8Key) = none) ∧
    (100 : Nat) < 0 + 3600 ∧ (0 : Nat) + 3600 ≤ 3600 ∧
    (cachedCall c8Fetch 3600 c8Key 0 ⟨[]⟩ =
        (c8Fetch c8Key 0, ⟨[(c8Key, 0, c8Fetch c8Key 0)]⟩, true) ∧
      cachedCall c8Fetch 3600 c8Key 100 ⟨[(c8Key, 0, c8Fetch c8Key 0)]⟩ =
        (c8Fetch c8Key 0, ⟨[(c8Key, 0, c8Fetch c8Key 0)]⟩, false) ∧
      (cachedCall c8Fetch 3600 c8Key 3600 ⟨[(c8Key, 0, c8Fetch c8Key 0)]⟩).1 =
        c8Fetch c8Key 3600 ∧
      (cachedCall c8Fetch 3600 c8Key 3600 ⟨[(c8Key, 0, c8Fetch c8Key 0)]⟩).2.2 = true) ∧
    c8Fetch c8Key 3600 ≠ c8Fetch c8Key 0 :=
  ⟨rfl, by decide, by decide,
    c8_cache c8Fetch c8Key 0 100 3600 ⟨[]⟩ rfl (by decide) (by decide),
    by decide⟩

end Dashboard
